import Mathlib

/-!
Verification development for the skincare-content agent pipeline
(`src/agents.py`): the retrying external-call client (`BaseAgent.call_llm`),
the analyst stage (price normalization, comma-list splitting, question and
competitor parsing in `AnalystAgent.run`) and the template-driven page
builder (`PublisherAgent.build_page`).

External collaborators (the remote generation service, Python's `json.loads`,
the template registry and the deterministic logic-block registry) are
modelled as explicit function parameters; machine-level details such as
wall-clock sleeping are recorded as data (the list of wait durations).
-/

namespace AgentPipeline

/-- Checks that `pat` occurs at the start of `l` (character-wise equality). -/
def startsWithSeq : List Char → List Char → Bool
  | [], _ => true
  | _ :: _, [] => false
  | a :: as, b :: bs => a == b && startsWithSeq as bs

/-- Checks that `pat` occurs contiguously anywhere inside `l`. -/
def containsSeq (pat : List Char) : List Char → Bool
  | [] => pat.isEmpty
  | b :: bs => startsWithSeq pat (b :: bs) || containsSeq pat bs

/-- `strContains s pat` models Python's `pat in s` substring test. -/
def strContains (s pat : String) : Bool :=
  containsSeq pat.data s.data

/-- Result of one attempt of the remote generation call: either a response
text or a raised exception carrying a message. -/
inductive CallResult where
  | ok (text : String)
  | err (msg : String)
deriving DecidableEq

/-- ASCII lower-casing of one character. -/
def asciiLower (c : Char) : Char :=
  if 'A' ≤ c && c ≤ 'Z' then Char.ofNat (c.toNat + 32) else c

/-- Python's `str.lower()` (ASCII model). -/
def pyLower (s : String) : String :=
  ⟨s.data.map asciiLower⟩

/-- The transient-failure test of `call_llm` (agents.py line 42):
`"429" in error_msg or "quota" in error_msg.lower()`. -/
def isTransient (msg : String) : Bool :=
  strContains msg "429" || strContains (pyLower msg) "quota"

instance {α β : Type} [DecidableEq α] [DecidableEq β] : DecidableEq (Except α β) := fun x y =>
  match x, y with
  | .error a, .error b =>
    if h : a = b then .isTrue (h ▸ rfl) else .isFalse (fun hc => h (Except.error.inj hc))
  | .ok a, .ok b =>
    if h : a = b then .isTrue (h ▸ rfl) else .isFalse (fun hc => h (Except.ok.inj hc))
  | .error _, .ok _ => .isFalse (fun hc => Except.noConfusion hc)
  | .ok _, .error _ => .isFalse (fun hc => Except.noConfusion hc)

/-- Observable outcome of one `call_llm` invocation: the returned text or the
raised exception message, the number of attempts performed, and the list of
back-off wait durations (in seconds) slept before each retry, in order. -/
structure CallOutcome where
  result : Except String String
  attempts : Nat
  waits : List ℚ
deriving DecidableEq

/-- `max_retries = 5` (agents.py line 33). -/
def max_retries : Nat := 5

/-- `base_delay = 20` (agents.py line 34). -/
def base_delay : ℚ := 20

/-- The retry loop of `call_llm` (agents.py lines 36-50), fuelled by the
number of remaining attempts.  `oracle n` is the outcome of the remote call
on attempt `n` and `jitter n` models `random.uniform(1, 5)` on attempt `n`.
On success the response text is returned; on a transient failure the loop
waits `base_delay * 2 ^ attempt + jitter attempt` and retries; on any other
failure it returns the degraded value (`"{}"` when `expect_json`, else the
placeholder sentence); when the fuel runs out the final `raise` fires. -/
def call_llm_aux (expect_json : Bool) (oracle : Nat → CallResult)
    (jitter : Nat → ℚ) : Nat → Nat → CallOutcome
  | 0, _ => ⟨.error "Max retries exceeded for Gemini API.", 0, []⟩
  | fuel + 1, attempt =>
    match oracle attempt with
    | .ok t => ⟨.ok t, 1, []⟩
    | .err m =>
      if isTransient m then
        let rest := call_llm_aux expect_json oracle jitter fuel (attempt + 1)
        ⟨rest.result, rest.attempts + 1,
          (base_delay * 2 ^ attempt + jitter attempt) :: rest.waits⟩
      else
        ⟨.ok (if expect_json then "\x7b\x7d" else "Error generating content."), 1, []⟩

/-- `BaseAgent.call_llm` (agents.py lines 19-50) as a function of the attempt
oracle: runs the retry loop with `max_retries` fuel starting at attempt 0. -/
def call_llm (expect_json : Bool) (oracle : Nat → CallResult)
    (jitter : Nat → ℚ) : CallOutcome :=
  call_llm_aux expect_json oracle jitter max_retries 0

/-! ### Data model

`agents.py` imports its record types from `src/models.py`, whose current
version is not part of the sources here (the checked-in `models.py` is an
earlier revision lacking most of the imported classes), so the records are
modelled from the spec's data-model section. -/

/-- Modelled from the spec: `ProductData` — name, optional concentration,
ordered string lists for skin type / ingredients / benefits, usage and
side-effect strings, and a numeric price. -/
structure ProductData where
  name : String
  concentration : Option String
  skin_type : List String
  ingredients : List String
  benefits : List String
  how_to_use : String
  side_effects : String
  price : ℚ
deriving DecidableEq

/-- Modelled from the spec: `UserQuestion` — category, question text, and an
answer text that is absent until the question is answered for a section. -/
structure UserQuestion where
  category : String
  question_text : String
  answer_text : Option String
deriving DecidableEq

/-- Modelled from the spec: `CompetitorProduct` — name, ingredient and
benefit lists, numeric price. -/
structure CompetitorProduct where
  name : String
  key_ingredients : List String
  benefits : List String
  price : ℚ
deriving DecidableEq

/-- Modelled from the spec: `AgentState` (PipelineState) — one product, the
ordered generated-question list, and the synthesized competitor.  The
competitor field is optional because `build_page` guards on its truthiness;
the analyst stage always populates it. -/
structure AgentState where
  primary_product : ProductData
  generated_questions : List UserQuestion
  competitor_product : Option CompetitorProduct
deriving DecidableEq

/-- Section content is a sum of prose text and an ordered answered-question
list (spec data model for `PageSection.content`). -/
inductive SectionContent where
  | text (s : String)
  | qa (qs : List UserQuestion)
deriving DecidableEq

/-- Modelled from the spec: `PageSection` — heading plus content. -/
structure PageSection where
  heading : String
  content : SectionContent
deriving DecidableEq

/-- Modelled from the spec: `PageOutput` — page type, meta title and
description, ordered section list. -/
structure PageOutput where
  page_type : String
  meta_title : String
  meta_description : String
  sections : List PageSection
deriving DecidableEq

/-! ### Price normalization (agents.py lines 58-59) -/

/-- `re.sub(r'[^\d.]', '', raw_price)`: keep only digits and dots. -/
def stripNonNumeric (s : String) : String :=
  ⟨s.data.filter (fun c => c.isDigit || c == '.')⟩

/-- Numeric value of an ASCII digit list read left to right. -/
def digitsToNat (cs : List Char) : Nat :=
  cs.foldl (fun acc c => 10 * acc + (c.toNat - '0'.toNat)) 0

/-- Python's `float` on a string made only of digits and dots: it succeeds
exactly when the string holds at least one digit and at most one dot
(`""`, `"."` and `"1.2.3"` raise `ValueError`; `"1."` and `".5"` parse),
and then denotes integer part plus fractional part. -/
def pyFloat (s : String) : Option ℚ :=
  if s.data.any Char.isDigit && s.data.count '.' ≤ 1 then
    let ip := s.data.takeWhile (fun c => c != '.')
    let fp := (s.data.dropWhile (fun c => c != '.')).drop 1
    some ((digitsToNat ip : ℚ) + (digitsToNat fp : ℚ) / 10 ^ fp.length)
  else
    none

/-- Lines 58-59 of agents.py:
`clean_price = float(re.sub(r'[^\d.]', '', str(raw_data['Price']))) if raw_data["Price"] else 0.0`.
`none` models an absent `Price` key (the subscript raises `KeyError`); an
empty string is falsy and yields `0.0`; otherwise the stripped string is
parsed, `float` raising `ValueError` when it cannot parse. -/
def clean_price (price : Option String) : Except String ℚ :=
  match price with
  | none => .error "KeyError: 'Price'"
  | some raw =>
    if raw = "" then .ok 0
    else
      match pyFloat (stripNonNumeric raw) with
      | some q => .ok q
      | none => .error "ValueError: could not convert string to float"

/-! ### Comma-list splitting (agents.py lines 64-66) -/

/-- Python's whitespace set for `str.strip()` (ASCII part). -/
def isPySpace (c : Char) : Bool :=
  c == ' ' || c == '\t' || c == '\n' || c == '\x0d' || c == '\x0b' || c == '\x0c'

/-- `str.strip()` on the character list: drop whitespace from the front,
then from the back. -/
def stripChars (l : List Char) : List Char :=
  ((l.dropWhile isPySpace).reverse.dropWhile isPySpace).reverse

/-- Python's `s.strip()`. -/
def pyStrip (s : String) : String :=
  ⟨stripChars s.data⟩

/-- `[x.strip() for x in s.split(",")]` (agents.py lines 64-66). -/
def split_and_strip (s : String) : List String :=
  (s.splitOn ",").map pyStrip

/-! ### Structured responses (agents.py lines 88-93 and 115-119)

`json.loads` is Python library code; it is modelled as a caller-supplied
`String → Option Json` (`none` = `JSONDecodeError`). -/

/-- A JSON value. -/
inductive Json where
  | null
  | bool (b : Bool)
  | num (q : ℚ)
  | str (s : String)
  | arr (xs : List Json)
  | obj (kvs : List (String × Json))

/-- Subscripting a decoded value with a string key as in
`json.loads(...)["questions"]`: succeeds only on an object holding the key
(anything else raises and is caught by the surrounding `except`). -/
def getKey (j : Json) (k : String) : Option Json :=
  match j with
  | .obj kvs => kvs.lookup k
  | _ => none

/-- The value must be a JSON string. -/
def asString : Json → Option String
  | .str s => some s
  | _ => none

/-- The value must be a JSON number. -/
def asNumber : Json → Option ℚ
  | .num q => some q
  | _ => none

/-- The value must be a JSON array. -/
def asArray : Json → Option (List Json)
  | .arr xs => some xs
  | _ => none

/-- Left-to-right traversal of a list by a fallible function, stopping at
the first failure — the behaviour of a Python list comprehension whose body
may raise. -/
def traverseOption {α β : Type} (f : α → Option β) : List α → Option (List β)
  | [] => some []
  | a :: as => do
    let b ← f a
    let bs ← traverseOption f as
    pure (b :: bs)

/-- The value must be a JSON array of strings. -/
def asStringList (j : Json) : Option (List String) := do
  let xs ← asArray j
  traverseOption asString xs

/-- Modelled from the spec: `UserQuestion(**q)` validation against the
questions-batch shape — the entry must be an object with string `category`
and `question_text`; the answer starts absent. -/
def validateQuestion (j : Json) : Option UserQuestion := do
  let c ← getKey j "category" >>= asString
  let t ← getKey j "question_text" >>= asString
  pure ⟨c, t, none⟩

/-- Modelled from the spec: `CompetitorProduct(**obj)` validation against the
competitor shape `\x7bname, key_ingredients, benefits, price\x7d` with a
numeric price. -/
def validateCompetitor (j : Json) : Option CompetitorProduct := do
  let n ← getKey j "name" >>= asString
  let ki ← getKey j "key_ingredients" >>= asStringList
  let bs ← getKey j "benefits" >>= asStringList
  let p ← getKey j "price" >>= asNumber
  pure ⟨n, ki, bs, p⟩

/-- The whole fallible question-batch extraction inside the `try` of
agents.py lines 88-90: decode, subscript `"questions"`, iterate, construct
each `UserQuestion`. -/
def questionsAttempt (loads : String → Option Json) (resp : String) :
    Option (List UserQuestion) := do
  let j ← loads resp
  let qv ← getKey j "questions"
  let arr ← asArray qv
  traverseOption validateQuestion arr

/-- Agents.py lines 88-93: any failure in the attempt is caught and degrades
to the empty list. -/
def questions_from_response (loads : String → Option Json) (resp : String) :
    List UserQuestion :=
  match questionsAttempt loads resp with
  | some qs => qs
  | none => []

/-- The documented competitor placeholder (agents.py line 119). -/
def competitorPlaceholder : CompetitorProduct :=
  ⟨"Unknown", [], [], 0⟩

/-- Agents.py lines 115-119: `CompetitorProduct(**json.loads(c_response))`,
any failure caught and replaced by the placeholder. -/
def synthesize_competitor (loads : String → Option Json) (resp : String) :
    CompetitorProduct :=
  match loads resp >>= validateCompetitor with
  | some c => c
  | none => competitorPlaceholder

/-! ### Page builder (`PublisherAgent.build_page`, agents.py lines 131-188) -/

/-- A template block: a Python dict with the keys `build_page` reads.
`none` models an absent key; `block['k']` on an absent key raises
`KeyError`, while `block.get('section', "Section")` defaults. -/
structure Block where
  source : Option String
  function : Option String
  filter : Option String
  instruction : Option String
  section' : Option String
deriving DecidableEq

/-- A template: `page_type` plus the ordered block list (`structure`). -/
structure Template where
  page_type : String
  structure' : List Block

/-- The external collaborators `build_page` uses: the logic-block registry
(`ContentLogicBlocks`, consumed as an opaque function registry; `none`
models `getattr` raising `AttributeError`), the remote service (per system
prompt and content, the per-attempt outcome), the back-off jitter, and
pydantic's `model_dump_json` serializer. -/
structure BuildEnv where
  registry : String → Option (ProductData → Option CompetitorProduct → String)
  oracle : String → String → Nat → CallResult
  jitter : Nat → ℚ
  dump : ProductData → String

/-- One `self.call_llm(...)` invocation inside the publisher, routed through
the retry client with the environment's oracle for this prompt pair. -/
def invoke (env : BuildEnv) (system_prompt user_content : String)
    (expect_json : Bool) : CallOutcome :=
  call_llm expect_json (env.oracle system_prompt user_content) env.jitter

/-- The per-question answer prompt of agents.py line 155. -/
def answerPrompt (state : AgentState) (q : UserQuestion) : String :=
  "Answer this concisely for " ++ state.primary_product.name ++ ": " ++ q.question_text

/-- The freeform-block prompt of agents.py lines 170-174. -/
def freeformPrompt (env : BuildEnv) (state : AgentState) (instruction : String) : String :=
  "\n                Context: " ++ env.dump state.primary_product ++
  "\n                Instruction: " ++ instruction ++
  "\n                Write a section body. Use HTML formatting if needed (e.g. <p>, <strong>).\n                "

/-- The `subset_questions` loop of agents.py lines 153-166: one call per
matching question, the trimmed response attached to a fresh copy of the
question (`model_copy` translated as a functional record update).  A raised
`call_llm` exception propagates. -/
def answer_questions (env : BuildEnv) (state : AgentState) :
    List UserQuestion → Except String (List UserQuestion)
  | [] => .ok []
  | q :: rest =>
    match (invoke env "You are a helpful customer support agent."
        (answerPrompt state q) false).result with
    | .error e => .error e
    | .ok ans => do
      let rest' ← answer_questions env state rest
      .ok ({ q with answer_text := some (pyStrip ans) } :: rest')

/-- The freeform branch of agents.py lines 168-179, given the block's
instruction text. -/
def freeform_content (env : BuildEnv) (state : AgentState) (instruction : String) :
    Except String SectionContent :=
  match (invoke env "You are an expert marketing copywriter."
      (freeformPrompt env state instruction) false).result with
  | .ok t => .ok (.text t)
  | .error e => .error e

/-- The logic-block branch of agents.py lines 140-147: resolve the function
by name (`getattr`, raising on an unknown name), then call it with the
competitor exactly when the name contains `"compare"` and the state's
competitor is truthy. -/
def logic_block_content (env : BuildEnv) (state : AgentState) (b : Block) :
    Except String SectionContent :=
  match b.function with
  | none => .error "KeyError: 'function'"
  | some fname =>
    match env.registry fname with
    | none => .error "AttributeError: ContentLogicBlocks has no such function"
    | some f =>
      if strContains fname "compare" && state.competitor_product.isSome then
        .ok (.text (f state.primary_product state.competitor_product))
      else
        .ok (.text (f state.primary_product none))

/-- The per-block dispatch of agents.py lines 137-179:
`'source' in block and block['source'] == 'logic_block'`, then
`'source' in block and block['source'] == 'subset_questions'`, else the
freeform branch reading `block['instruction']`. -/
def buildBlockContent (env : BuildEnv) (state : AgentState) (b : Block) :
    Except String SectionContent :=
  if b.source = some "logic_block" then
    logic_block_content env state b
  else if b.source = some "subset_questions" then
    match b.filter with
    | none => .error "KeyError: 'filter'"
    | some category => do
      let qa ← answer_questions env state
        (state.generated_questions.filter (fun q => q.category == category))
      .ok (.qa qa)
  else
    match b.instruction with
    | none => .error "KeyError: 'instruction'"
    | some instruction => freeform_content env state instruction

/-- The block loop of agents.py lines 137-181: one `PageSection` per block,
in template order, heading defaulting to `"Section"`. -/
def buildSections (env : BuildEnv) (state : AgentState) :
    List Block → Except String (List PageSection)
  | [] => .ok []
  | b :: rest => do
    let content ← buildBlockContent env state b
    let rest' ← buildSections env state rest
    .ok (⟨b.section'.getD "Section", content⟩ :: rest')

/-- `PublisherAgent.build_page` (agents.py lines 131-188): look the template
up in the external `TEMPLATES` registry, build the section list, and wrap it
with the derived metadata. -/
def build_page (templates : String → Option Template) (env : BuildEnv)
    (state : AgentState) (template_key : String) : Except String PageOutput :=
  match templates template_key with
  | none => .error "KeyError: template"
  | some t => do
    let secs ← buildSections env state t.structure'
    .ok ⟨t.page_type,
         state.primary_product.name ++ " - " ++ t.page_type,
         "Automated " ++ t.page_type ++ " for " ++ state.primary_product.name,
         secs⟩

/-! ### Retry-client lemmas -/

/-- Skipping `j` consecutive transient failures: the loop performs `j`
back-off waits with the exponential formula and continues at attempt
`a + j` with `j` fewer units of fuel. -/
lemma call_llm_aux_skip (ej : Bool) (oracle : Nat → CallResult) (jitter : Nat → ℚ)
    (j : Nat) : ∀ fuel a : Nat, j ≤ fuel →
    (∀ i, i < j → ∃ m, oracle (a + i) = .err m ∧ isTransient m = true) →
    call_llm_aux ej oracle jitter fuel a =
      ⟨(call_llm_aux ej oracle jitter (fuel - j) (a + j)).result,
       (call_llm_aux ej oracle jitter (fuel - j) (a + j)).attempts + j,
       ((List.range j).map (fun i => base_delay * 2 ^ (a + i) + jitter (a + i))) ++
         (call_llm_aux ej oracle jitter (fuel - j) (a + j)).waits⟩ := by
  induction j with
  | zero => intro fuel a _ _; simp
  | succ j ih =>
    intro fuel a hle h
    cases fuel with
    | zero => omega
    | succ fuel =>
      obtain ⟨m, hm, ht⟩ := h 0 (Nat.succ_pos j)
      rw [Nat.add_zero] at hm
      have step : call_llm_aux ej oracle jitter (fuel + 1) a =
          ⟨(call_llm_aux ej oracle jitter fuel (a + 1)).result,
           (call_llm_aux ej oracle jitter fuel (a + 1)).attempts + 1,
           (base_delay * 2 ^ a + jitter a) ::
             (call_llm_aux ej oracle jitter fuel (a + 1)).waits⟩ := by
        simp only [call_llm_aux, hm, ht, if_true]
      have hrec := ih fuel (a + 1) (Nat.le_of_succ_le_succ hle) (fun i hi => by
        have hx := h (i + 1) (Nat.succ_lt_succ hi)
        have : a + 1 + i = a + (i + 1) := by omega
        rw [this]; exact hx)
      have hfuel : fuel - j = fuel + 1 - (j + 1) := by omega
      have ha : a + 1 + j = a + (j + 1) := by omega
      rw [hfuel, ha] at hrec
      rw [step, hrec]
      have hrange : (List.range (j + 1)).map
            (fun i => base_delay * 2 ^ (a + i) + jitter (a + i)) =
          (base_delay * 2 ^ a + jitter a) ::
            (List.range j).map (fun i => base_delay * 2 ^ (a + 1 + i) + jitter (a + 1 + i)) := by
        rw [List.range_succ_eq_map, List.map_cons, List.map_map]
        refine congrArg₂ List.cons (by rw [Nat.add_zero]) ?_
        refine List.map_congr_left (fun i _ => ?_)
        have hsucc : a + Nat.succ i = a + 1 + i := by omega
        simp only [Function.comp_apply, hsucc]
      rw [hrange]
      simp [List.cons_append, Nat.add_assoc]

/-- C2: when every attempt of the remote call fails transiently (message
contains "429" or, case-insensitively, "quota"), `call_llm` raises the
"Max retries exceeded" error after exactly the configured maximum of 5
attempts, rather than returning a degraded value. -/
theorem C2_all_transient_fatal (ej : Bool) (oracle : Nat → CallResult)
    (jitter : Nat → ℚ)
    (h : ∀ i, i < max_retries → ∃ m, oracle i = .err m ∧ isTransient m = true) :
    (call_llm ej oracle jitter).result =
      .error "Max retries exceeded for Gemini API." ∧
    (call_llm ej oracle jitter).attempts = max_retries ∧
    max_retries = 5 := by
  have hs := call_llm_aux_skip ej oracle jitter max_retries max_retries 0 le_rfl
    (fun i hi => by simpa using h i hi)
  unfold call_llm
  rw [hs]
  simp [call_llm_aux, max_retries]

/-- C2 witness: an oracle that always raises a 429 error exhausts all 5
attempts and raises the fatal error. -/
theorem C2_all_transient_fatal_witness :
    (call_llm false (fun _ => CallResult.err "429") (fun _ => 2)).result =
      .error "Max retries exceeded for Gemini API." ∧
    (call_llm false (fun _ => CallResult.err "429") (fun _ => 2)).attempts = max_retries ∧
    max_retries = 5 :=
  C2_all_transient_fatal false (fun _ => CallResult.err "429") (fun _ => 2)
    (fun i _ => ⟨"429", rfl, by decide⟩)

/-- C3: when the remote call fails transiently on attempts `0..k-1` and
succeeds on attempt `k < 5`, `call_llm` returns the successful response,
performs `k + 1 ≤ 5` attempts, and before each retry `i` waits
`base_delay * 2 ^ i + jitter i`, which lies in
`[base_delay * 2 ^ i + 1, base_delay * 2 ^ i + 5]` whenever the jitter is
within its 1–5 range. -/
theorem C3_transient_then_success (ej : Bool) (oracle : Nat → CallResult)
    (jitter : Nat → ℚ) (k : Nat) (t : String)
    (hk : k < max_retries)
    (hfail : ∀ i, i < k → ∃ m, oracle i = .err m ∧ isTransient m = true)
    (hok : oracle k = .ok t) :
    (call_llm ej oracle jitter).result = .ok t ∧
    (call_llm ej oracle jitter).attempts = k + 1 ∧
    (call_llm ej oracle jitter).attempts ≤ max_retries ∧
    (call_llm ej oracle jitter).waits =
      (List.range k).map (fun i => base_delay * 2 ^ i + jitter i) ∧
    (∀ i, i < k → 1 ≤ jitter i → jitter i ≤ 5 →
      base_delay * 2 ^ i + 1 ≤ base_delay * 2 ^ i + jitter i ∧
      base_delay * 2 ^ i + jitter i ≤ base_delay * 2 ^ i + 5) := by
  have hs := call_llm_aux_skip ej oracle jitter k max_retries 0 (Nat.le_of_lt hk)
    (fun i hi => by simpa using hfail i hi)
  unfold call_llm
  rw [hs]
  obtain ⟨d, hd⟩ : ∃ d, max_retries - k = d + 1 :=
    ⟨max_retries - k - 1, by unfold max_retries at *; omega⟩
  rw [hd]
  have hstep : call_llm_aux ej oracle jitter (d + 1) (0 + k) = ⟨.ok t, 1, []⟩ := by
    simp only [call_llm_aux, Nat.zero_add, hok]
  rw [hstep]
  refine ⟨rfl, ?_, ?_, by simp, ?_⟩
  · show 1 + k = k + 1
    omega
  · show 1 + k ≤ max_retries
    omega
  · intro i _ h1 h5
    exact ⟨by linarith, by linarith⟩

/-- C3 witness: three transient failures then success on attempt 3 returns
the response after 4 attempts with the three exponential back-off waits. -/
theorem C3_transient_then_success_witness :
    (call_llm false (fun n => if n < 3 then CallResult.err "quota hit" else .ok "hi")
        (fun _ => 2)).result = .ok "hi" ∧
    (call_llm false (fun n => if n < 3 then CallResult.err "quota hit" else .ok "hi")
        (fun _ => 2)).attempts = 3 + 1 ∧
    (call_llm false (fun n => if n < 3 then CallResult.err "quota hit" else .ok "hi")
        (fun _ => 2)).attempts ≤ max_retries ∧
    (call_llm false (fun n => if n < 3 then CallResult.err "quota hit" else .ok "hi")
        (fun _ => 2)).waits =
      (List.range 3).map (fun i => base_delay * 2 ^ i + (fun _ => (2 : ℚ)) i) ∧
    (∀ i, i < 3 → 1 ≤ (fun _ => (2 : ℚ)) i → (fun _ => (2 : ℚ)) i ≤ 5 →
      base_delay * 2 ^ i + 1 ≤ base_delay * 2 ^ i + (fun _ => (2 : ℚ)) i ∧
      base_delay * 2 ^ i + (fun _ => (2 : ℚ)) i ≤ base_delay * 2 ^ i + 5) :=
  C3_transient_then_success false
    (fun n => if n < 3 then CallResult.err "quota hit" else .ok "hi")
    (fun _ => 2) 3 "hi" (by decide)
    (fun i hi => ⟨"quota hit", by simp [hi], by decide⟩) (by decide)

/-- C4: a non-transient failure (message contains neither "429" nor
"quota") at attempt `k` is not retried: `call_llm` stops after that attempt
with no further waits and returns the degraded value — `"{}"` when a
structured response was expected, else the error placeholder text. -/
theorem C4_nontransient_degrades (ej : Bool) (oracle : Nat → CallResult)
    (jitter : Nat → ℚ) (k : Nat) (m : String)
    (hk : k < max_retries)
    (hfail : ∀ i, i < k → ∃ m', oracle i = .err m' ∧ isTransient m' = true)
    (herr : oracle k = .err m) (hnt : isTransient m = false) :
    (call_llm ej oracle jitter).result =
      .ok (if ej then "\x7b\x7d" else "Error generating content.") ∧
    (call_llm ej oracle jitter).attempts = k + 1 ∧
    (call_llm ej oracle jitter).waits =
      (List.range k).map (fun i => base_delay * 2 ^ i + jitter i) := by
  have hs := call_llm_aux_skip ej oracle jitter k max_retries 0 (Nat.le_of_lt hk)
    (fun i hi => by simpa using hfail i hi)
  unfold call_llm
  rw [hs]
  obtain ⟨d, hd⟩ : ∃ d, max_retries - k = d + 1 :=
    ⟨max_retries - k - 1, by unfold max_retries at *; omega⟩
  rw [hd]
  have hstep : call_llm_aux ej oracle jitter (d + 1) (0 + k) =
      ⟨.ok (if ej then "\x7b\x7d" else "Error generating content."), 1, []⟩ := by
    simp [call_llm_aux, Nat.zero_add, herr, hnt]
  rw [hstep]
  refine ⟨rfl, ?_, by simp⟩
  show 1 + k = k + 1
  omega

/-- C4 witness: an immediately non-transient failure on a structured call
returns the empty-JSON-object string after a single attempt and no waits. -/
theorem C4_nontransient_degrades_witness :
    (call_llm true (fun _ => CallResult.err "boom") (fun _ => 2)).result =
      .ok (if true then "\x7b\x7d" else "Error generating content.") ∧
    (call_llm true (fun _ => CallResult.err "boom") (fun _ => 2)).attempts = 0 + 1 ∧
    (call_llm true (fun _ => CallResult.err "boom") (fun _ => 2)).waits =
      (List.range 0).map (fun i => base_delay * 2 ^ i + (fun _ => (2 : ℚ)) i) :=
  C4_nontransient_degrades true (fun _ => CallResult.err "boom") (fun _ => 2) 0 "boom"
    (by decide) (fun i hi => absurd hi (Nat.not_lt_zero i)) rfl (by decide)

/-- C5 counterexample: a non-empty price field containing only non-numeric
text is truthy, strips to the empty string, and `float("")` raises a
`ValueError` — the code fails instead of coercing the price to 0. -/
theorem C5_counterexample :
    clean_price (some "abc") =
      .error "ValueError: could not convert string to float" := by
  decide

/-- C5 (amended): price normalization strips every character that is not a
digit or a decimal point and parses the remainder as a float; an
empty/falsy price yields 0.0; but a missing `Price` key raises `KeyError`,
and a truthy price whose stripped remainder has no digit or more than one
dot raises `ValueError` instead of coercing to 0. -/
theorem C5_price_normalization (price : Option String) :
    (price = none → clean_price price = Except.error "KeyError: 'Price'") ∧
    (price = some "" → clean_price price = Except.ok 0) ∧
    (∀ raw, price = some raw → raw ≠ "" →
      (∀ c ∈ (stripNonNumeric raw).data, (c.isDigit || c == '.') = true) ∧
      (pyFloat (stripNonNumeric raw) = none ↔
        ¬ ((stripNonNumeric raw).data.any Char.isDigit = true ∧
           (stripNonNumeric raw).data.count '.' ≤ 1)) ∧
      (∀ q, pyFloat (stripNonNumeric raw) = some q →
        clean_price price = Except.ok q) ∧
      (pyFloat (stripNonNumeric raw) = none →
        clean_price price =
          Except.error "ValueError: could not convert string to float")) := by
  refine ⟨fun h => by rw [h]; rfl, fun h => by rw [h]; rfl, ?_⟩
  intro raw hp hne
  refine ⟨?_, ?_, ?_, ?_⟩
  · intro c hc
    exact (List.mem_filter.mp hc).2
  · unfold pyFloat
    by_cases hc : ((stripNonNumeric raw).data.any Char.isDigit &&
        decide ((stripNonNumeric raw).data.count '.' ≤ 1)) = true
    · rw [if_pos hc]
      simp only [Bool.and_eq_true, decide_eq_true_eq] at hc
      exact iff_of_false (by simp) (not_not_intro hc)
    · rw [if_neg hc]
      simp only [Bool.and_eq_true, decide_eq_true_eq] at hc
      exact iff_of_true rfl hc
  · intro q hq
    rw [hp]
    have hred : clean_price (some raw) =
        (if raw = "" then Except.ok 0
         else match pyFloat (stripNonNumeric raw) with
           | some q => Except.ok q
           | none => Except.error "ValueError: could not convert string to float") := rfl
    rw [hred, if_neg hne, hq]
  · intro hq
    rw [hp]
    have hred : clean_price (some raw) =
        (if raw = "" then Except.ok 0
         else match pyFloat (stripNonNumeric raw) with
           | some q => Except.ok q
           | none => Except.error "ValueError: could not convert string to float") := rfl
    rw [hred, if_neg hne, hq]

/-- C5 amended-claim witness: a currency-formatted price with separators
parses to its numeric value (1299.50). -/
theorem C5_price_normalization_witness :
    ((some "$1,299.50" : Option String) = none →
      clean_price (some "$1,299.50") = Except.error "KeyError: 'Price'") ∧
    ((some "$1,299.50" : Option String) = some "" →
      clean_price (some "$1,299.50") = Except.ok 0) ∧
    (∀ raw, (some "$1,299.50" : Option String) = some raw → raw ≠ "" →
      (∀ c ∈ (stripNonNumeric raw).data, (c.isDigit || c == '.') = true) ∧
      (pyFloat (stripNonNumeric raw) = none ↔
        ¬ ((stripNonNumeric raw).data.any Char.isDigit = true ∧
           (stripNonNumeric raw).data.count '.' ≤ 1)) ∧
      (∀ q, pyFloat (stripNonNumeric raw) = some q →
        clean_price (some "$1,299.50") = Except.ok q) ∧
      (pyFloat (stripNonNumeric raw) = none →
        clean_price (some "$1,299.50") =
          Except.error "ValueError: could not convert string to float")) :=
  C5_price_normalization (some "$1,299.50")

/-! ### Stripping lemmas -/

/-- The first element surviving `dropWhile p` does not satisfy `p`. -/
lemma head?_dropWhile_negative {α : Type} (p : α → Bool) (l : List α) :
    ∀ c, (l.dropWhile p).head? = some c → p c = false := by
  induction l with
  | nil => intro c h; simp [List.dropWhile] at h
  | cons a as ih =>
    intro c h
    by_cases hp : p a
    · rw [List.dropWhile_cons_of_pos hp] at h
      exact ih c h
    · rw [List.dropWhile_cons_of_neg hp] at h
      rw [List.head?_cons, Option.some.injEq] at h
      rw [← h]
      exact Bool.of_not_eq_true hp

/-- `dropWhile` removes a prefix only: a non-empty result keeps the last
element of the original list. -/
lemma getLast?_dropWhile {α : Type} (p : α → Bool) (l : List α) :
    l.dropWhile p = [] ∨ (l.dropWhile p).getLast? = l.getLast? := by
  induction l with
  | nil => exact Or.inl rfl
  | cons a as ih =>
    by_cases hp : p a
    · rw [List.dropWhile_cons_of_pos hp]
      cases hemp : as.dropWhile p with
      | nil => exact Or.inl rfl
      | cons b bs =>
        rcases ih with h | h
        · rw [hemp] at h
          exact absurd h (by simp)
        · right
          rw [hemp] at h
          rw [h]
          cases as with
          | nil => rw [List.dropWhile_nil] at hemp; simp at hemp
          | cons b' bs' => rw [List.getLast?_cons_cons]
    · rw [List.dropWhile_cons_of_neg hp]
      exact Or.inr rfl

/-- Specification of `stripChars`: the result has no whitespace at either
end, and it is obtained from the input by removing a whitespace prefix and
a whitespace suffix only. -/
lemma stripChars_spec (l : List Char) :
    (∀ c, (stripChars l).head? = some c → isPySpace c = false) ∧
    (∀ c, (stripChars l).getLast? = some c → isPySpace c = false) ∧
    (∃ pre post, l = pre ++ stripChars l ++ post ∧
      (∀ c ∈ pre, isPySpace c = true) ∧ (∀ c ∈ post, isPySpace c = true)) := by
  unfold stripChars
  refine ⟨?_, ?_, ?_⟩
  · intro c h
    rw [List.head?_reverse] at h
    rcases getLast?_dropWhile isPySpace (l.dropWhile isPySpace).reverse with he | he
    · rw [he] at h; simp at h
    · rw [he, List.getLast?_reverse] at h
      exact head?_dropWhile_negative isPySpace l c h
  · intro c h
    rw [List.getLast?_reverse] at h
    exact head?_dropWhile_negative isPySpace (l.dropWhile isPySpace).reverse c h
  · refine ⟨l.takeWhile isPySpace,
      ((l.dropWhile isPySpace).reverse.takeWhile isPySpace).reverse, ?_, ?_, ?_⟩
    · have h1 : l = l.takeWhile isPySpace ++ l.dropWhile isPySpace :=
        (List.takeWhile_append_dropWhile isPySpace l).symm
      have h2 : (l.dropWhile isPySpace).reverse =
          (l.dropWhile isPySpace).reverse.takeWhile isPySpace ++
            (l.dropWhile isPySpace).reverse.dropWhile isPySpace :=
        (List.takeWhile_append_dropWhile isPySpace _).symm
      have h3 : l.dropWhile isPySpace =
          ((l.dropWhile isPySpace).reverse.dropWhile isPySpace).reverse ++
            ((l.dropWhile isPySpace).reverse.takeWhile isPySpace).reverse := by
        have := congrArg List.reverse h2
        rwa [List.reverse_reverse, List.reverse_append] at this
      rw [List.append_assoc]
      exact h3 ▸ h1
    · intro c hc
      exact List.mem_takeWhile_imp hc
    · intro c hc
      rw [List.mem_reverse] at hc
      exact List.mem_takeWhile_imp hc

/-- C9: each comma-delimited field is split on commas into an ordered list,
position by position the strip of the corresponding raw element; every
element has no leading or trailing whitespace, and is its raw element with
only a whitespace prefix and suffix removed. -/
theorem C9_split_fields (s : String) :
    (split_and_strip s).length = (s.splitOn ",").length ∧
    split_and_strip s = (s.splitOn ",").map pyStrip ∧
    (∀ x ∈ split_and_strip s,
      (∀ c, x.data.head? = some c → isPySpace c = false) ∧
      (∀ c, x.data.getLast? = some c → isPySpace c = false) ∧
      (∃ y ∈ s.splitOn ",", ∃ pre post, y.data = pre ++ x.data ++ post ∧
        (∀ c ∈ pre, isPySpace c = true) ∧ (∀ c ∈ post, isPySpace c = true))) := by
  refine ⟨by simp [split_and_strip], rfl, ?_⟩
  intro x hx
  obtain ⟨y, hy, hxy⟩ := List.mem_map.mp hx
  have hdata : x.data = stripChars y.data := by rw [← hxy]; rfl
  obtain ⟨h1, h2, pre, post, hdec, hpre, hpost⟩ := stripChars_spec y.data
  refine ⟨fun c hc => h1 c (hdata ▸ hc), fun c hc => h2 c (hdata ▸ hc),
    y, hy, pre, post, ?_, hpre, hpost⟩
  rw [hdata]
  exact hdec

/-- C9 witness: a concrete comma-separated field with assorted whitespace. -/
theorem C9_split_fields_witness :
    (split_and_strip "  oily , dry ,sensitive").length =
      (("  oily , dry ,sensitive").splitOn ",").length ∧
    split_and_strip "  oily , dry ,sensitive" =
      (("  oily , dry ,sensitive").splitOn ",").map pyStrip ∧
    (∀ x ∈ split_and_strip "  oily , dry ,sensitive",
      (∀ c, x.data.head? = some c → isPySpace c = false) ∧
      (∀ c, x.data.getLast? = some c → isPySpace c = false) ∧
      (∃ y ∈ ("  oily , dry ,sensitive").splitOn ",", ∃ pre post,
        y.data = pre ++ x.data ++ post ∧
        (∀ c ∈ pre, isPySpace c = true) ∧ (∀ c ∈ post, isPySpace c = true))) :=
  C9_split_fields "  oily , dry ,sensitive"

/-- Traversal fails as soon as one element fails. -/
lemma traverseOption_none_of_mem {α β : Type} (f : α → Option β) :
    ∀ (l : List α) (e : α), e ∈ l → f e = none → traverseOption f l = none := by
  intro l
  induction l with
  | nil => intro e he _; cases he
  | cons a as ih =>
    intro e he hf
    rcases List.mem_cons.mp he with h | h
    · subst h
      simp [traverseOption, hf]
    · cases hfa : f a with
      | none => simp [traverseOption, hfa]
      | some b => simp [traverseOption, hfa, ih e h hf]

/-- C6: competitor synthesis never propagates an error to its caller:
whenever decoding the response or constructing the `CompetitorProduct`
fails for any reason, the result is the canonical placeholder — name
"Unknown", empty ingredient and benefit lists, price 0. -/
theorem C6_competitor_placeholder (loads : String → Option Json) (resp : String)
    (h : loads resp >>= validateCompetitor = none) :
    synthesize_competitor loads resp = competitorPlaceholder ∧
    competitorPlaceholder = ⟨"Unknown", [], [], 0⟩ := by
  unfold synthesize_competitor
  rw [h]
  exact ⟨rfl, rfl⟩

/-- C6 witness: an undecodable response yields the placeholder. -/
theorem C6_competitor_placeholder_witness :
    synthesize_competitor (fun _ => none) "not json" = competitorPlaceholder ∧
    competitorPlaceholder = ⟨"Unknown", [], [], 0⟩ :=
  C6_competitor_placeholder (fun _ => none) "not json" rfl

/-- C7: the question batch degrades to the empty list, with no exception
propagated, whenever JSON decoding fails, the decoded value has no
`"questions"` key, the `"questions"` value is not an array, or any entry of
the array fails to construct a `UserQuestion`. -/
theorem C7_questions_degrade (loads : String → Option Json) (resp : String) :
    (loads resp = none → questions_from_response loads resp = []) ∧
    (∀ j, loads resp = some j → getKey j "questions" = none →
      questions_from_response loads resp = []) ∧
    (∀ j qv, loads resp = some j → getKey j "questions" = some qv →
      asArray qv = none → questions_from_response loads resp = []) ∧
    (∀ j qv arr, loads resp = some j → getKey j "questions" = some qv →
      asArray qv = some arr → (∃ e ∈ arr, validateQuestion e = none) →
      questions_from_response loads resp = []) := by
  refine ⟨?_, ?_, ?_, ?_⟩
  · intro h
    simp [questions_from_response, questionsAttempt, h]
  · intro j h1 h2
    simp [questions_from_response, questionsAttempt, h1, h2]
  · intro j qv h1 h2 h3
    simp [questions_from_response, questionsAttempt, h1, h2, h3]
  · intro j qv arr h1 h2 h3 hbad
    obtain ⟨e, he, hve⟩ := hbad
    simp [questions_from_response, questionsAttempt, h1, h2, h3,
      traverseOption_none_of_mem validateQuestion arr e he hve]

/-- C7 witness: an undecodable response yields the empty question list. -/
theorem C7_questions_degrade_witness :
    questions_from_response (fun _ => none) "oops" = [] :=
  (C7_questions_degrade (fun _ => none) "oops").1 rfl

/-- When every per-question call returns, the answer loop returns the
answered copies in order: each input question with the trimmed response
attached. -/
lemma answer_questions_ok (env : BuildEnv) (state : AgentState)
    (ansOf : UserQuestion → String) :
    ∀ qs : List UserQuestion,
    (∀ q ∈ qs, (invoke env "You are a helpful customer support agent."
        (answerPrompt state q) false).result = .ok (ansOf q)) →
    answer_questions env state qs =
      .ok (qs.map fun q => { q with answer_text := some (pyStrip (ansOf q)) }) := by
  intro qs
  induction qs with
  | nil => intro _; rfl
  | cons q rest ih =>
    intro h
    unfold answer_questions
    rw [h q (List.mem_cons_self q rest),
      ih (fun x hx => h x (List.mem_cons_of_mem q hx))]
    rfl

/-- C8: a `subset_questions` block with category filter `F` produces exactly
the questions of the pipeline state whose category equals `F`, in their
original order, each as a fresh copy carrying the trimmed response to its
product-contextualized prompt as `answer_text`; the copies keep the
original category and question text, and the state's canonical question
list is untouched (the embedding is a pure function of `state`, matching
`model_copy` in the source, which never writes through to
`state.generated_questions`). -/
theorem C8_subset_questions (env : BuildEnv) (state : AgentState) (b : Block)
    (F : String) (ansOf : UserQuestion → String)
    (hsrc : b.source = some "subset_questions")
    (hfil : b.filter = some F)
    (hans : ∀ q ∈ state.generated_questions.filter (fun q => q.category == F),
      (invoke env "You are a helpful customer support agent."
        (answerPrompt state q) false).result = .ok (ansOf q)) :
    buildBlockContent env state b =
      .ok (.qa ((state.generated_questions.filter (fun q => q.category == F)).map
        fun q => { q with answer_text := some (pyStrip (ansOf q)) })) ∧
    (∀ q ∈ state.generated_questions.filter (fun q => q.category == F),
      ({ q with answer_text := some (pyStrip (ansOf q)) } : UserQuestion).category
          = q.category ∧
      ({ q with answer_text := some (pyStrip (ansOf q)) } : UserQuestion).question_text
          = q.question_text) := by
  have hne : b.source ≠ some "logic_block" := by
    rw [hsrc]
    decide
  constructor
  · unfold buildBlockContent
    rw [if_neg hne, if_pos hsrc, hfil]
    show (do
      let qa ← answer_questions env state
        (state.generated_questions.filter (fun q => q.category == F))
      Except.ok (SectionContent.qa qa)) = _
    rw [answer_questions_ok env state ansOf _ hans]
    rfl
  · intro q _
    exact ⟨rfl, rfl⟩

/-- C8 witness: filter "Safety" over three questions (two matching) with a
constant oracle produces the two answered copies in order. -/
theorem C8_subset_questions_witness :
    buildBlockContent
        ⟨fun _ => none, fun _ _ _ => CallResult.ok " yes, it is safe ", fun _ => 2,
          fun _ => "ctx"⟩
        ⟨⟨"Serum", none, [], [], [], "", "", 0⟩,
          [⟨"Safety", "Is it safe?", none⟩, ⟨"Usage", "How?", none⟩,
            ⟨"Safety", "Patch test?", none⟩], some ⟨"X", [], [], 0⟩⟩
        ⟨some "subset_questions", none, some "Safety", none, some "FAQ"⟩ =
      .ok (.qa ((([⟨"Safety", "Is it safe?", none⟩, ⟨"Usage", "How?", none⟩,
            ⟨"Safety", "Patch test?", none⟩] : List UserQuestion).filter
              (fun q => q.category == "Safety")).map
          fun q => { q with
            answer_text := some (pyStrip ((fun _ => " yes, it is safe ") q)) })) ∧
    (∀ q ∈ ([⟨"Safety", "Is it safe?", none⟩, ⟨"Usage", "How?", none⟩,
          ⟨"Safety", "Patch test?", none⟩] : List UserQuestion).filter
            (fun q => q.category == "Safety"),
      ({ q with answer_text := some (pyStrip ((fun _ => " yes, it is safe ") q)) }
          : UserQuestion).category = q.category ∧
      ({ q with answer_text := some (pyStrip ((fun _ => " yes, it is safe ") q)) }
          : UserQuestion).question_text = q.question_text) :=
  C8_subset_questions
    ⟨fun _ => none, fun _ _ _ => CallResult.ok " yes, it is safe ", fun _ => 2,
      fun _ => "ctx"⟩
    ⟨⟨"Serum", none, [], [], [], "", "", 0⟩,
      [⟨"Safety", "Is it safe?", none⟩, ⟨"Usage", "How?", none⟩,
        ⟨"Safety", "Patch test?", none⟩], some ⟨"X", [], [], 0⟩⟩
    ⟨some "subset_questions", none, some "Safety", none, some "FAQ"⟩
    "Safety" (fun _ => " yes, it is safe ") rfl rfl (fun _ _ => rfl)

/-- C10: a block whose `source` is neither `logic_block` nor
`subset_questions` (including a block with no `source` key) dispatches to
the freeform branch, which reads the block's `instruction` key; if the
`instruction` key is also absent, the dict subscript raises and `build_page`
fails with an error instead of producing a degraded section. -/
theorem C10_freeform_dispatch (env : BuildEnv) (state : AgentState) (b : Block)
    (pt key : String)
    (h1 : b.source ≠ some "logic_block") (h2 : b.source ≠ some "subset_questions") :
    (∀ instr, b.instruction = some instr →
      buildBlockContent env state b = freeform_content env state instr) ∧
    (b.instruction = none →
      buildBlockContent env state b = .error "KeyError: 'instruction'" ∧
      build_page (fun _ => some ⟨pt, [b]⟩) env state key =
        .error "KeyError: 'instruction'") := by
  constructor
  · intro instr hi
    unfold buildBlockContent
    rw [if_neg h1, if_neg h2, hi]
  · intro hi
    have hbc : buildBlockContent env state b = .error "KeyError: 'instruction'" := by
      unfold buildBlockContent
      rw [if_neg h1, if_neg h2, hi]
    refine ⟨hbc, ?_⟩
    unfold build_page
    show (do
      let secs ← buildSections env state [b]
      Except.ok (⟨pt, state.primary_product.name ++ " - " ++ pt,
        "Automated " ++ pt ++ " for " ++ state.primary_product.name,
        secs⟩ : PageOutput)) = _
    unfold buildSections
    rw [hbc]
    rfl

/-- C10 witness: an empty block (no keys at all) routes to the freeform
branch and makes the one-block build fail with the `instruction` key error. -/
theorem C10_freeform_dispatch_witness :
    (∀ instr, (⟨none, none, none, none, none⟩ : Block).instruction = some instr →
      buildBlockContent
        ⟨fun _ => none, fun _ _ _ => CallResult.ok "body", fun _ => 2, fun _ => "ctx"⟩
        ⟨⟨"Serum", none, [], [], [], "", "", 0⟩, [], none⟩
        ⟨none, none, none, none, none⟩ =
        freeform_content
          ⟨fun _ => none, fun _ _ _ => CallResult.ok "body", fun _ => 2, fun _ => "ctx"⟩
          ⟨⟨"Serum", none, [], [], [], "", "", 0⟩, [], none⟩ instr) ∧
    ((⟨none, none, none, none, none⟩ : Block).instruction = none →
      buildBlockContent
        ⟨fun _ => none, fun _ _ _ => CallResult.ok "body", fun _ => 2, fun _ => "ctx"⟩
        ⟨⟨"Serum", none, [], [], [], "", "", 0⟩, [], none⟩
        ⟨none, none, none, none, none⟩ = .error "KeyError: 'instruction'" ∧
      build_page (fun _ => some ⟨"FAQ Page", [⟨none, none, none, none, none⟩]⟩)
        ⟨fun _ => none, fun _ _ _ => CallResult.ok "body", fun _ => 2, fun _ => "ctx"⟩
        ⟨⟨"Serum", none, [], [], [], "", "", 0⟩, [], none⟩ "faq" =
        .error "KeyError: 'instruction'") :=
  C10_freeform_dispatch
    ⟨fun _ => none, fun _ _ _ => CallResult.ok "body", fun _ => 2, fun _ => "ctx"⟩
    ⟨⟨"Serum", none, [], [], [], "", "", 0⟩, [], none⟩
    ⟨none, none, none, none, none⟩ "FAQ Page" "faq"
    (by decide) (by decide)

/-- Whether an `Except` value is a normal return. -/
def exceptIsOk {ε α : Type} : Except ε α → Bool
  | .ok _ => true
  | .error _ => false

/-- A template block that `build_page` can process without raising: a
logic block must name a function the registry resolves, a subset block must
carry a filter, and any other block must carry an instruction. -/
def wellFormedBlock
    (registry : String → Option (ProductData → Option CompetitorProduct → String))
    (b : Block) : Prop :=
  if b.source = some "logic_block" then
    ∃ fname f, b.function = some fname ∧ registry fname = some f
  else if b.source = some "subset_questions" then
    b.filter.isSome = true
  else
    b.instruction.isSome = true

/-- When every call returns (no retry exhaustion), the answer loop returns
some list. -/
lemma answer_questions_isOk (env : BuildEnv) (state : AgentState)
    (hok : ∀ sys c, exceptIsOk (invoke env sys c false).result = true) :
    ∀ qs : List UserQuestion, ∃ l, answer_questions env state qs = .ok l := by
  intro qs
  induction qs with
  | nil => exact ⟨[], rfl⟩
  | cons q rest ih =>
    obtain ⟨l, hl⟩ := ih
    have h := hok "You are a helpful customer support agent." (answerPrompt state q)
    cases hres : (invoke env "You are a helpful customer support agent."
        (answerPrompt state q) false).result with
    | error e => rw [hres] at h; simp [exceptIsOk] at h
    | ok ans =>
      refine ⟨{ q with answer_text := some (pyStrip ans) } :: l, ?_⟩
      unfold answer_questions
      rw [hres, hl]
      rfl

/-- A well-formed block builds some content when every call returns. -/
lemma buildBlockContent_isOk (env : BuildEnv) (state : AgentState) (b : Block)
    (hwf : wellFormedBlock env.registry b)
    (hok : ∀ sys c, exceptIsOk (invoke env sys c false).result = true) :
    ∃ c, buildBlockContent env state b = .ok c := by
  unfold wellFormedBlock at hwf
  by_cases hsl : b.source = some "logic_block"
  · rw [if_pos hsl] at hwf
    obtain ⟨fname, f, hfn, hr⟩ := hwf
    unfold buildBlockContent logic_block_content
    rw [if_pos hsl, hfn]
    show ∃ c, (match env.registry fname with
      | none => Except.error "AttributeError: ContentLogicBlocks has no such function"
      | some f =>
        if (strContains fname "compare" && state.competitor_product.isSome) = true then
          Except.ok (SectionContent.text (f state.primary_product state.competitor_product))
        else
          Except.ok (SectionContent.text (f state.primary_product none))) = Except.ok c
    rw [hr]
    by_cases hcmp : (strContains fname "compare" && state.competitor_product.isSome) = true
    · exact ⟨.text (f state.primary_product state.competitor_product), by
        show (if (strContains fname "compare" && state.competitor_product.isSome) = true then
            Except.ok (SectionContent.text (f state.primary_product state.competitor_product))
          else Except.ok (SectionContent.text (f state.primary_product none))) = _
        rw [if_pos hcmp]⟩
    · exact ⟨.text (f state.primary_product none), by
        show (if (strContains fname "compare" && state.competitor_product.isSome) = true then
            Except.ok (SectionContent.text (f state.primary_product state.competitor_product))
          else Except.ok (SectionContent.text (f state.primary_product none))) = _
        rw [if_neg hcmp]⟩
  · rw [if_neg hsl] at hwf
    by_cases hss : b.source = some "subset_questions"
    · rw [if_pos hss] at hwf
      cases hfv : b.filter with
      | none => rw [hfv] at hwf; simp at hwf
      | some F =>
        obtain ⟨l, hl⟩ := answer_questions_isOk env state hok
          (state.generated_questions.filter (fun q => q.category == F))
        refine ⟨.qa l, ?_⟩
        unfold buildBlockContent
        rw [if_neg hsl, if_pos hss, hfv]
        show (do
          let qa ← answer_questions env state
            (state.generated_questions.filter (fun q => q.category == F))
          Except.ok (SectionContent.qa qa)) = _
        rw [hl]
        rfl
    · rw [if_neg hss] at hwf
      cases hin : b.instruction with
      | none => rw [hin] at hwf; simp at hwf
      | some instr =>
        have h := hok "You are an expert marketing copywriter."
          (freeformPrompt env state instr)
        cases hres : (invoke env "You are an expert marketing copywriter."
            (freeformPrompt env state instr) false).result with
        | error e => rw [hres] at h; simp [exceptIsOk] at h
        | ok t =>
          refine ⟨.text t, ?_⟩
          unfold buildBlockContent
          rw [if_neg hsl, if_neg hss, hin]
          show freeform_content env state instr = Except.ok (SectionContent.text t)
          unfold freeform_content
          rw [hres]

/-- When every block is well formed and every call returns, the section
loop yields one section per block, in order, with the defaulted heading and
each content built from its own block alone. -/
lemma buildSections_isOk (env : BuildEnv) (state : AgentState)
    (hok : ∀ sys c, exceptIsOk (invoke env sys c false).result = true) :
    ∀ blocks : List Block, (∀ b ∈ blocks, wellFormedBlock env.registry b) →
    ∃ secs, buildSections env state blocks = .ok secs ∧
      secs.length = blocks.length ∧
      List.Forall₂ (fun (b : Block) (s : PageSection) =>
        s.heading = b.section'.getD "Section" ∧
        buildBlockContent env state b = .ok s.content) blocks secs := by
  intro blocks
  induction blocks with
  | nil => exact fun _ => ⟨[], rfl, rfl, List.Forall₂.nil⟩
  | cons b rest ih =>
    intro hwf
    obtain ⟨c, hc⟩ := buildBlockContent_isOk env state b
      (hwf b (List.mem_cons_self b rest)) hok
    obtain ⟨secs, hs, hlen, hfa⟩ := ih (fun x hx => hwf x (List.mem_cons_of_mem b hx))
    refine ⟨⟨b.section'.getD "Section", c⟩ :: secs, ?_, by simp [hlen], ?_⟩
    · unfold buildSections
      rw [hc, hs]
      rfl
    · exact List.Forall₂.cons ⟨rfl, hc⟩ hfa

/-- C1 (amended): for a template all of whose blocks are well formed, and
whenever no external call exhausts its transient-retry budget (every
`call_llm` returns rather than raises), `build_page` returns a `PageOutput`
with exactly one section per template block, in template-block order, each
section's heading and content determined by its own block alone — so a
non-transiently failing call degrades only its own block's content. -/
theorem C1_page_assembly (templates : String → Option Template) (env : BuildEnv)
    (state : AgentState) (key : String) (tpl : Template)
    (hkey : templates key = some tpl)
    (hwf : ∀ b ∈ tpl.structure', wellFormedBlock env.registry b)
    (hok : ∀ sys c, exceptIsOk (invoke env sys c false).result = true) :
    ∃ out, build_page templates env state key = .ok out ∧
      out.sections.length = tpl.structure'.length ∧
      List.Forall₂ (fun (b : Block) (s : PageSection) =>
        s.heading = b.section'.getD "Section" ∧
        buildBlockContent env state b = .ok s.content)
        tpl.structure' out.sections := by
  obtain ⟨secs, hs, hlen, hfa⟩ := buildSections_isOk env state hok tpl.structure' hwf
  refine ⟨⟨tpl.page_type, state.primary_product.name ++ " - " ++ tpl.page_type,
    "Automated " ++ tpl.page_type ++ " for " ++ state.primary_product.name,
    secs⟩, ?_, hlen, hfa⟩
  unfold build_page
  rw [hkey]
  show (do
    let secs ← buildSections env state tpl.structure'
    Except.ok (⟨tpl.page_type, state.primary_product.name ++ " - " ++ tpl.page_type,
      "Automated " ++ tpl.page_type ++ " for " ++ state.primary_product.name,
      secs⟩ : PageOutput)) = _
  rw [hs]
  rfl

/-- C1 amended-claim witness: a two-block template (one freeform block and
one logic block) assembles both sections in order with a constant oracle. -/
theorem C1_page_assembly_witness :
    ∃ out, build_page
      (fun _ => some ⟨"Product Detail Page",
        [⟨none, none, none, some "Write an intro", some "Intro"⟩,
         ⟨some "logic_block", some "render_specs", none, none, some "Specs"⟩]⟩)
      ⟨fun _ => some (fun p _ => p.name), fun _ _ _ => CallResult.ok "body",
        fun _ => 2, fun _ => "ctx"⟩
      ⟨⟨"Serum", none, [], [], [], "", "", 0⟩, [], none⟩ "pdp" = .ok out ∧
    out.sections.length =
      ([⟨none, none, none, some "Write an intro", some "Intro"⟩,
        ⟨some "logic_block", some "render_specs", none, none, some "Specs"⟩]
        : List Block).length ∧
    List.Forall₂ (fun (b : Block) (s : PageSection) =>
      s.heading = b.section'.getD "Section" ∧
      buildBlockContent
        ⟨fun _ => some (fun p _ => p.name), fun _ _ _ => CallResult.ok "body",
          fun _ => 2, fun _ => "ctx"⟩
        ⟨⟨"Serum", none, [], [], [], "", "", 0⟩, [], none⟩ b = .ok s.content)
      [⟨none, none, none, some "Write an intro", some "Intro"⟩,
       ⟨some "logic_block", some "render_specs", none, none, some "Specs"⟩]
      out.sections :=
  C1_page_assembly
    (fun _ => some ⟨"Product Detail Page",
      [⟨none, none, none, some "Write an intro", some "Intro"⟩,
       ⟨some "logic_block", some "render_specs", none, none, some "Specs"⟩]⟩)
    ⟨fun _ => some (fun p _ => p.name), fun _ _ _ => CallResult.ok "body",
      fun _ => 2, fun _ => "ctx"⟩
    ⟨⟨"Serum", none, [], [], [], "", "", 0⟩, [], none⟩ "pdp" _ rfl
    (by
      intro b hb
      rcases hb with _ | ⟨_, hb⟩
      · exact rfl
      · rcases hb with _ | ⟨_, hb⟩
        · exact ⟨"render_specs", fun p _ => p.name, rfl, rfl⟩
        · cases hb)
    (fun _ _ => rfl)

/-- C1 counterexample: with a template of one well-formed freeform block
and a remote call that always fails transiently, `build_page` does not
return a `PageOutput` at all — the retry exhaustion aborts assembly with
the fatal error, refuting the unconditional claim. -/
theorem C1_counterexample :
    build_page
      (fun _ => some ⟨"Product Detail Page",
        [⟨none, none, none, some "Write an intro", some "Intro"⟩]⟩)
      ⟨fun _ => none, fun _ _ _ => CallResult.err "429", fun _ => 2, fun _ => "ctx"⟩
      ⟨⟨"Serum", none, [], [], [], "", "", 0⟩, [], none⟩ "pdp" =
      .error "Max retries exceeded for Gemini API." := by
  decide

end AgentPipeline

